import Mathlib

/-!
Verification development for the chart-analysis core of the TradingBot
repository (`python-backend/chart_analyzer.py`).

Modelling conventions:
* Python floats are modelled by exact rationals (`ℚ`); all the thresholds,
  weights and clamp bounds appearing in the source are decimal literals that
  are exact in `ℚ`.
* The decoded raster is modelled after the colour-space conversion performed
  by the source: an `Image` carries its height, width and the list of pixels
  as HSV triples (OpenCV's `cvtColor(BGR2HSV)` maps black `(0,0,0)` to HSV
  `(0,0,0)`).  Pixel-mask counting (`cv2.inRange` + `cv2.countNonZero`) is
  embedded exactly.
* Opaque OpenCV algorithms (Canny, HoughLinesP, morphological openings,
  findContours, the image-container codecs) are modelled as oracle functions
  gathered in `CVOracle` / `DecodeOracle`; everything the source does with
  their outputs (filters, densities, thresholds, control flow) is embedded
  exactly.
* Free-text `reasoning` strings, log output and the diagnostic sub-dicts
  (`analysis_details`, `markers_detected`) of the produced signals are not
  modelled; no claim refers to them.
-/

/-- A pixel in HSV colour space, as produced by `cvtColor(image, COLOR_BGR2HSV)`
(8-bit channels, hue in 0..180). -/
structure HSV where
  h : ℕ
  s : ℕ
  v : ℕ
deriving DecidableEq

/-- A decoded raster: `height`/`width` are the shape, `pixels` the HSV pixels. -/
structure Image where
  height : ℕ
  width : ℕ
  pixels : List HSV
deriving DecidableEq

/-- A line segment `(x1, y1, x2, y2)` as returned by `cv2.HoughLinesP`. -/
structure Segment where
  x1 : ℤ
  y1 : ℤ
  x2 : ℤ
  y2 : ℤ
deriving DecidableEq

/-- Membership of a pixel in an inclusive HSV box, as `cv2.inRange` decides it. -/
def inRangeHSV (lo hi p : HSV) : Bool :=
  decide (lo.h ≤ p.h ∧ p.h ≤ hi.h ∧ lo.s ≤ p.s ∧ p.s ≤ hi.s ∧ lo.v ≤ p.v ∧ p.v ≤ hi.v)

/-- `cv2.countNonZero (cv2.inRange hsv lo hi)`: number of pixels inside the box. -/
def countInRange (img : Image) (lo hi : HSV) : ℕ :=
  (img.pixels.filter (fun p => inRangeHSV lo hi p)).length

/-- Count of pixels inside the union of two HSV boxes
(`cv2.bitwise_or` of two `inRange` masks, then `countNonZero`). -/
def countInRange2 (img : Image) (lo1 hi1 lo2 hi2 : HSV) : ℕ :=
  (img.pixels.filter (fun p => inRangeHSV lo1 hi1 p || inRangeHSV lo2 hi2 p)).length

/-- `image.shape[0] * image.shape[1]`, the pixel-count denominator used by the
source for every density computation, as a rational. -/
def totalPixels (img : Image) : ℚ :=
  ((img.height * img.width : ℕ) : ℚ)

/-! ### Trend Color Analyzer (`_analyze_trend_colors`, lines 154-204) -/

def greenLower : HSV := ⟨35, 50, 50⟩
def greenUpper : HSV := ⟨85, 255, 255⟩
def redLower1 : HSV := ⟨0, 50, 50⟩
def redUpper1 : HSV := ⟨10, 255, 255⟩
def redLower2 : HSV := ⟨170, 50, 50⟩
def redUpper2 : HSV := ⟨180, 255, 255⟩

/-- `green_ratio = countNonZero(green_mask) / total_pixels` of the source. -/
def greenFrac (img : Image) : ℚ :=
  (countInRange img greenLower greenUpper : ℚ) / totalPixels img

/-- `red_ratio` of the source: the red hue band wraps around 0/180 and is the
union of two sub-ranges. -/
def redFrac (img : Image) : ℚ :=
  (countInRange2 img redLower1 redUpper1 redLower2 redUpper2 : ℚ) / totalPixels img

/-- Result record of `_analyze_trend_colors`.  The source field names are
`green_ratio` / `red_ratio`; they are rendered `green_frac` / `red_frac` here. -/
structure TrendAnalysis where
  trend : String
  confidence : ℚ
  green_frac : ℚ
  red_frac : ℚ
  dominant_color : String
deriving DecidableEq

/-- `_analyze_trend_colors` (non-exception path). -/
def analyzeTrendColors (img : Image) : TrendAnalysis :=
  let green_frac := greenFrac img
  let red_frac := redFrac img
  let dominant := if green_frac > red_frac then "green" else "red"
  if green_frac > red_frac ∧ green_frac > 0.02 then
    ⟨"bullish", min 0.95 (0.6 + green_frac * 5), green_frac, red_frac, dominant⟩
  else if red_frac > green_frac ∧ red_frac > 0.02 then
    ⟨"bearish", min 0.95 (0.6 + red_frac * 5), green_frac, red_frac, dominant⟩
  else
    ⟨"neutral", 0.5, green_frac, red_frac, dominant⟩

/-! ### Existing-Trade Detector (`_detect_existing_trade`, lines 206-331)
and `_extract_trade_parameters` (lines 333-376) -/

def blueLower : HSV := ⟨100, 30, 30⟩
def blueUpper : HSV := ⟨130, 255, 255⟩
def purpleLower : HSV := ⟨140, 30, 30⟩
def purpleUpper : HSV := ⟨170, 255, 255⟩

/-- `blue_density` of `_detect_existing_trade`. -/
def blueDensity (img : Image) : ℚ :=
  (countInRange img blueLower blueUpper : ℚ) / totalPixels img

/-- `purple_density` of `_detect_existing_trade`. -/
def purpleDensity (img : Image) : ℚ :=
  (countInRange img purpleLower purpleUpper : ℚ) / totalPixels img

/-- One entry of `horizontal_levels` in `_detect_existing_trade`: vertical
position `(y1+y2)/2` (true division, hence rational), the position as a
fraction of the image height (source name `height_ratio`), the length
`abs(x2-x1)`, and the strength `abs(x2-x1)/width`. -/
structure TradeLevel where
  y_position : ℚ
  height_frac : ℚ
  length : ℕ
  strength : ℚ
deriving DecidableEq

/-- Build the `horizontal_levels` record for one Hough segment. -/
def tradeLevelOf (height width : ℕ) (seg : Segment) : TradeLevel :=
  let y_pos : ℚ := ((seg.y1 + seg.y2 : ℤ) : ℚ) / 2
  { y_position := y_pos
    height_frac := y_pos / (height : ℚ)
    length := (seg.x2 - seg.x1).natAbs
    strength := ((seg.x2 - seg.x1).natAbs : ℚ) / (width : ℚ) }

/-- The near-horizontal filter of `_detect_existing_trade`:
`abs(y2 - y1) <= 3 and abs(x2 - x1) >= width // 4`. -/
def isTradeHorizontal (width : ℕ) (seg : Segment) : Bool :=
  decide ((seg.y2 - seg.y1).natAbs ≤ 3 ∧ width / 4 ≤ (seg.x2 - seg.x1).natAbs)

/-- `horizontal_levels`, filtered from the Hough output and sorted by vertical
position (Python `list.sort(key=...)`, a stable ascending sort). -/
def detectHorizontalLevels (height width : ℕ) (lines : List Segment) : List TradeLevel :=
  (((lines.filter (fun s => isTradeHorizontal width s)).map
      (fun s => tradeLevelOf height width s)).mergeSort
    (fun a b => decide (a.y_position ≤ b.y_position)))

/-- Round half to even (banker's rounding), the idealisation of Python's
built-in `round` on exact rationals. -/
def roundHalfEven (x : ℚ) : ℤ :=
  let n := ⌊x⌋
  let f := x - (n : ℚ)
  if f < 1/2 then n else if 1/2 < f then n + 1 else if n % 2 = 0 then n else n + 1

/-- Python `round(x, 1)`: round to one decimal place. -/
def round1 (x : ℚ) : ℚ :=
  ((roundHalfEven (x * 10) : ℤ) : ℚ) / 10

/-- Python `min(xs, key=k)` for a nonempty list: the first element attaining
the minimal key (later elements replace the candidate only on a strictly
smaller key). -/
def pyMinBy {α : Type} (k : α → ℚ) : List α → Option α
  | [] => none
  | x :: xs => some (xs.foldl (fun b y => if k y < k b then y else b) x)

/-- Result record of `_extract_trade_parameters`. -/
structure TradeParams where
  stop_loss_percent : ℚ
  take_profit_percent : ℚ
  levels_above : ℕ
  levels_below : ℕ
deriving DecidableEq

/-- `levels_above` of `_extract_trade_parameters`: levels strictly above the
vertical midpoint (`current_price_y = image_height * 0.5`). -/
def levelsAbove (levels : List TradeLevel) (image_height : ℕ) : List TradeLevel :=
  levels.filter (fun l => decide (l.y_position < (image_height : ℚ) * 0.5))

/-- `levels_below` of `_extract_trade_parameters`: levels strictly below the
vertical midpoint. -/
def levelsBelow (levels : List TradeLevel) (image_height : ℕ) : List TradeLevel :=
  levels.filter (fun l => decide (l.y_position > (image_height : ℚ) * 0.5))

/-- `_extract_trade_parameters` (non-exception path): the image's vertical
midpoint is taken as the current price; the nearest detected level above and
below it fix the offsets via clamped linear scales, rounded to one decimal. -/
def extractTradeParameters (levels : List TradeLevel) (image_height : ℕ) : TradeParams :=
  let current_price_y : ℚ := (image_height : ℚ) * 0.5
  let levels_above := levelsAbove levels image_height
  let levels_below := levelsBelow levels image_height
  let sl_default : ℚ := 0.5
  let tp_default : ℚ := 1.5
  match pyMinBy (fun l => |l.y_position - current_price_y|) levels_above,
        pyMinBy (fun l => |l.y_position - current_price_y|) levels_below with
  | some closest_above, some closest_below =>
      let above_distance := |closest_above.y_position - current_price_y| / (image_height : ℚ)
      let below_distance := |closest_below.y_position - current_price_y| / (image_height : ℚ)
      let tp := if 0 < above_distance then min 3.0 (max 0.5 (above_distance * 10)) else tp_default
      let sl := if 0 < below_distance then min 2.0 (max 0.3 (below_distance * 8)) else sl_default
      ⟨round1 sl, round1 tp, levels_above.length, levels_below.length⟩
  | _, _ =>
      ⟨round1 sl_default, round1 tp_default, levels_above.length, levels_below.length⟩

/-- Result record of `_detect_existing_trade`.  `trade_parameters` is optional
because the non-triggered branch of the source omits the key (the fusion
engine reads it through `dict.get` with defaults). -/
structure ExistingTrade where
  has_existing_trade : Bool
  trade_type : String
  trade_parameters : Option TradeParams
  confidence : ℚ
deriving DecidableEq

/-- `_detect_existing_trade` (non-exception path).  `lines` is the output of
`cv2.HoughLinesP` over the Canny edges of the image (opaque, supplied by the
caller as an oracle value). -/
def detectExistingTrade (img : Image) (lines : List Segment) : ExistingTrade :=
  let horizontal_levels := detectHorizontalLevels img.height img.width lines
  let has_trade_setup : Bool :=
    decide (blueDensity img > 0.002) || decide (purpleDensity img > 0.001) ||
      decide (3 ≤ horizontal_levels.length)
  if has_trade_setup then
    { has_existing_trade := true
      trade_type := "copy_existing_setup"
      trade_parameters := some (extractTradeParameters horizontal_levels img.height)
      confidence := 0.9 }
  else
    { has_existing_trade := false
      trade_type := "new_signal"
      trade_parameters := none
      confidence := 0.0 }

/-! ### Candlestick Pattern Detector (`_detect_candlestick_patterns`, lines 378-420) -/

/-- Result record of `_detect_candlestick_patterns`. -/
structure PatternAnalysis where
  pattern_detected : Bool
  pattern_type : String
  confidence : ℚ
  candlestick_density : ℚ
deriving DecidableEq

/-- `_detect_candlestick_patterns` (non-exception path), given the two opaque
`countNonZero` results of the vertical and horizontal morphological openings
of the Canny edges. -/
def detectCandlestickPatterns (vertical_count horizontal_count : ℕ) (img : Image) :
    PatternAnalysis :=
  let candlestick_density : ℚ :=
    ((vertical_count + horizontal_count : ℕ) : ℚ) / totalPixels img
  if candlestick_density > 0.01 then
    ⟨true, "standard_candlesticks", min 0.9 (candlestick_density * 50), candlestick_density⟩
  else
    ⟨false, "no_clear_pattern", 0.3, candlestick_density⟩

/-! ### Support/Resistance Finder (`_find_support_resistance_levels`, lines 422-456) -/

/-- One entry of `horizontal_lines` in `_find_support_resistance_levels`:
vertical position `(y1 + y2) // 2` (Python floor division), the squared
segment length (the source stores `sqrt((x2-x1)^2 + (y2-y1)^2)`; comparing
squared lengths orders segments identically because `sqrt` is monotone), and
the discovery-order strength `min(1.0, k * 0.1)` where `k` is the number of
previously accepted lines. -/
structure SRLevel where
  y_position : ℤ
  length_sq : ℤ
  strength : ℚ
deriving DecidableEq

/-- Rational lower bound of `tan 5°` (= 0.0874886...).  The source keeps a
segment when `angle < 5 or angle > 175` with
`angle = |atan2(y2-y1, x2-x1) * 180 / pi|`; for integer pixel coordinates this
is equivalent to `x2 ≠ x1 ∧ |y2-y1| < |x2-x1| * tan 5°`.  We decide that
comparison against the rational bound `0.0874886 < tan 5° < 0.0874887`; the
two tests agree unless the slope falls inside that `10⁻⁷` window (the exact
boundary is never hit because `tan 5°` is irrational). -/
def tanFiveDegLB : ℚ := 874886 / 10000000

/-- Near-horizontal angle filter of `_find_support_resistance_levels`. -/
def isNearHorizontalAngle (seg : Segment) : Bool :=
  decide (seg.x2 - seg.x1 ≠ 0 ∧
    ((seg.y2 - seg.y1).natAbs : ℚ) < ((seg.x2 - seg.x1).natAbs : ℚ) * tanFiveDegLB)

/-- The accumulation loop of `_find_support_resistance_levels`: each accepted
segment is appended with strength `min(1.0, len(horizontal_lines) * 0.1)`
computed from the list built so far. -/
def srScan : List Segment → List SRLevel → List SRLevel
  | [], acc => acc
  | seg :: rest, acc =>
      if isNearHorizontalAngle seg then
        srScan rest (acc ++
          [{ y_position := (seg.y1 + seg.y2).fdiv 2
             length_sq := (seg.x2 - seg.x1) ^ 2 + (seg.y2 - seg.y1) ^ 2
             strength := min 1.0 ((acc.length : ℚ) * 0.1) }])
      else
        srScan rest acc

/-- `horizontal_lines` as accumulated by the loop, before sorting. -/
def srHorizontalLines (lines : List Segment) : List SRLevel :=
  srScan lines []

/-- Result record of `_find_support_resistance_levels`. -/
structure SupportResistance where
  levels_detected : ℕ
  strong_levels : List SRLevel
  has_support_resistance : Bool
deriving DecidableEq

/-- `_find_support_resistance_levels` (non-exception path), given the opaque
`cv2.HoughLinesP` output over the grayscale image.  The final sort is by
strength, descending, stable (Python `sort(key=..., reverse=True)`). -/
def findSupportResistanceLevels (lines : List Segment) : SupportResistance :=
  let horizontal_lines := srHorizontalLines lines
  let sorted := horizontal_lines.mergeSort (fun a b => decide (b.strength ≤ a.strength))
  { levels_detected := horizontal_lines.length
    strong_levels := sorted.take 5
    has_support_resistance := decide (horizontal_lines.length > 2) }

/-! ### Price-Action Analyzer (`_analyze_price_action`, lines 458-510) -/

/-- Result record of `_analyze_price_action`.  The source's local
`upward_ratio` is rendered `upward_frac`. -/
structure PriceAction where
  trend_direction : String
  trend_strength : ℚ
  upward_movements : ℕ
  downward_movements : ℕ
deriving DecidableEq

/-- Count the up/down movements over the detected contours: a contour with
more than 10 points counts as upward when its last point's row index is
smaller than its first point's (y decreases upward on screen). -/
def countMovements (contours : List (List (ℤ × ℤ))) : ℕ × ℕ :=
  contours.foldl
    (fun acc c =>
      if 10 < c.length then
        match c.head?, c.getLast? with
        | some st, some en =>
            if en.2 < st.2 then (acc.1 + 1, acc.2)
            else if st.2 < en.2 then (acc.1, acc.2 + 1)
            else acc
        | _, _ => acc
      else acc)
    (0, 0)

/-- `_analyze_price_action` (non-exception path), given the opaque
`cv2.findContours` output. -/
def analyzePriceAction (contours : List (List (ℤ × ℤ))) : PriceAction :=
  let m := countMovements contours
  let upward_movement := m.1
  let downward_movement := m.2
  let total_movement := upward_movement + downward_movement
  if 0 < total_movement then
    let upward_frac : ℚ := (upward_movement : ℚ) / (total_movement : ℚ)
    if upward_frac > 0.6 then
      ⟨"upward", upward_frac, upward_movement, downward_movement⟩
    else if upward_frac < 0.4 then
      ⟨"downward", 1 - upward_frac, upward_movement, downward_movement⟩
    else
      ⟨"sideways", 0.5, upward_movement, downward_movement⟩
  else
    ⟨"unclear", 0.3, upward_movement, downward_movement⟩

/-! ### Volume Pattern Analyzer (`_analyze_volume_patterns`, lines 512-543) -/

/-- Result record of `_analyze_volume_patterns`. -/
structure VolumeAnalysis where
  volume_present : Bool
  volume_pattern : String
  volume_density : ℚ
deriving DecidableEq

/-- `_analyze_volume_patterns` (non-exception path), given the opaque
`countNonZero` of the morphological opening of the bottom-band grayscale.
The band starts at row `int(height * 0.7)`, modelled as `⌊7·height/10⌋`
(the float product `height * 0.7` can differ from the exact value by one
ulp for some heights; no claim depends on the band size). -/
def analyzeVolumePatterns (volume_count : ℕ) (img : Image) : VolumeAnalysis :=
  let region_height := img.height - 7 * img.height / 10
  let volume_density : ℚ := (volume_count : ℚ) / ((region_height * img.width : ℕ) : ℚ)
  if volume_density > 0.005 then
    ⟨true, "bars_detected", volume_density⟩
  else
    ⟨false, "no_volume_visible", volume_density⟩

/-! ### Signal Fusion Engine (`_generate_trading_signal`, lines 545-793) -/

/-- Aggregate of the analyzer records, mirroring the `analysis_results` dict
assembled in `analyze_chart_image` (lines 64-71). -/
structure AnalysisResults where
  trend_analysis : TrendAnalysis
  existing_trade : ExistingTrade
  candlestick_patterns : PatternAnalysis
  support_resistance : SupportResistance
  price_action : PriceAction
  volume_analysis : VolumeAnalysis
deriving DecidableEq

/-- The produced trading signal.  Only fields the source always emits are
modelled (see the header comment for the omitted free-text diagnostics). -/
structure Signal where
  isSignal : Bool
  confidence : ℚ
  symbol : String
  side : String
  entryPrice : Option ℚ
  stopLoss : Option ℚ
  takeProfit : Option ℚ
  stopLossPercent : ℚ
  takeProfitPercent : ℚ
  quantity : ℚ
  leverage : ℚ
  method : String
deriving DecidableEq

def sideSell : String := "sell"
def sideBuy : String := "buy"

/-- The copy branch (lines 567-615): the offsets come from the extracted trade
parameters, read through `dict.get` with defaults 0.5 / 1.5. -/
def copySignalOf (existing_trade : ExistingTrade) : Signal :=
  let stop_loss_percent : ℚ :=
    match existing_trade.trade_parameters with
    | some p => p.stop_loss_percent
    | none => 0.5
  let take_profit_percent : ℚ :=
    match existing_trade.trade_parameters with
    | some p => p.take_profit_percent
    | none => 1.5
  { isSignal := true
    confidence := 0.95
    symbol := "ETH"
    side := "copy"
    entryPrice := none
    stopLoss := none
    takeProfit := none
    stopLossPercent := stop_loss_percent
    takeProfitPercent := take_profit_percent
    quantity := 0.1
    leverage := 1
    method := "copy_existing_trade" }

/-- The legacy follow branch (lines 617-653): fixed conservative offsets. -/
def followSignal : Signal :=
  { isSignal := true
    confidence := 0.9
    symbol := "ETH"
    side := "follow"
    entryPrice := none
    stopLoss := none
    takeProfit := none
    stopLossPercent := 0.5
    takeProfitPercent := 1.5
    quantity := 0.1
    leverage := 1
    method := "existing_trade_follow" }

/-- The weighted-fusion branch (lines 655-775), written as the same sequential
accumulation of `signal_strength` / `signal_direction` the source performs. -/
def weightedSignalOf (a : AnalysisResults) : Signal :=
  let trend := a.trend_analysis
  let patterns := a.candlestick_patterns
  let levels := a.support_resistance
  let price_action := a.price_action
  -- Trend analysis weight (40%), direction-setting
  let step1 : ℚ × Option String :=
    if trend.trend = "bearish" then (0.4 * trend.confidence, some sideSell)
    else if trend.trend = "bullish" then (0.4 * trend.confidence, some sideBuy)
    else (0, none)
  -- Pattern analysis weight (30%), additive only
  let strength2 : ℚ :=
    step1.1 + (if patterns.pattern_detected then 0.3 * patterns.confidence else 0)
  -- Price action weight (20%), direction-setting only if still unset
  let step3 : ℚ × Option String :=
    if price_action.trend_direction = "downward" then
      (strength2 + 0.2 * price_action.trend_strength,
        if step1.2 = none then some sideSell else step1.2)
    else if price_action.trend_direction = "upward" then
      (strength2 + 0.2 * price_action.trend_strength,
        if step1.2 = none then some sideBuy else step1.2)
    else (strength2, step1.2)
  -- Support/resistance weight (10%), additive only
  let strength4 : ℚ :=
    step3.1 + (if levels.has_support_resistance then 0.1 else 0)
  -- Default sell bias when no direction was set
  let final : ℚ × String :=
    match step3.2 with
    | none => (max 0.7 strength4, sideSell)
    | some d => (strength4, d)
  let final_confidence : ℚ := max 0.75 final.1
  let sl_tp : ℚ × ℚ := if final.2 = "sell" then (0.5, -2.0) else (-0.5, 2.0)
  { isSignal := true
    confidence := final_confidence
    symbol := "ETH"
    side := final.2
    entryPrice := none
    stopLoss := none
    takeProfit := none
    stopLossPercent := sl_tp.1
    takeProfitPercent := sl_tp.2
    quantity := 0.1
    leverage := 1
    method := "python_computer_vision" }

/-- `_generate_trading_signal` (non-exception path). -/
def generateTradingSignal (a : AnalysisResults) : Signal :=
  if a.existing_trade.has_existing_trade then
    if a.existing_trade.trade_type = "copy_existing_setup" then
      copySignalOf a.existing_trade
    else
      followSignal
  else
    weightedSignalOf a

/-- The fixed signal returned by the `except` branch of
`_generate_trading_signal` (lines 777-793). -/
def fusionFallbackSignal : Signal :=
  { isSignal := true
    confidence := 0.8
    symbol := "ETH"
    side := "sell"
    entryPrice := none
    stopLoss := none
    takeProfit := none
    stopLossPercent := 0.5
    takeProfitPercent := 2.0
    quantity := 0.1
    leverage := 1
    method := "python_fallback" }

/-! ### Image Decoder (`_decode_image`, lines 91-152) and the pipeline entry
(`analyze_chart_image`, lines 17-89; `_create_error_response`, lines 795-815) -/

/-- The opaque codecs used by `_decode_image`: `base64.b64decode` (`none`
models a raised exception), the primary PIL container decode (including the
RGB conversion and BGR re-ordering), and the `cv2.imdecode` raw fallback. -/
structure DecodeOracle where
  b64 : String → Option (List ℕ)
  pil : List ℕ → Option Image
  cvFallback : List ℕ → Option Image

/-- The body of `_decode_image` after data-URI handling: strip whitespace,
base64-decode, reject payloads under 100 bytes, try the PIL decode, then the
OpenCV fallback. -/
def decodePayload (o : DecodeOracle) (payload : String) : Option Image :=
  match o.b64 payload.trim with
  | none => none
  | some image_bytes =>
      if image_bytes.length < 100 then none
      else
        match o.pil image_bytes with
        | some img => some img
        | none => o.cvFallback image_bytes

def dataMarker : String := "data:"
def commaSep : String := ","
def emptyString : String := ""

/-- `_decode_image`: a `data:` URI must contain a comma and then only the text
between the first and second comma is used (Python `split(',')[1]`); other
inputs are passed through unchanged. -/
def decodeImage (o : DecodeOracle) (image_data : String) : Option Image :=
  if image_data.startsWith dataMarker then
    if image_data.contains ',' then
      decodePayload o ((image_data.splitOn commaSep).getD 1 emptyString)
    else none
  else decodePayload o image_data

/-- The oracle inputs of the five analyzers that consume opaque OpenCV
results, bundled per image. -/
structure CVOracle where
  tradeLines : Image → List Segment
  srLines : Image → List Segment
  edgeVerticalCount : Image → ℕ
  edgeHorizontalCount : Image → ℕ
  contours : Image → List (List (ℤ × ℤ))
  volumeCount : Image → ℕ

/-- The analyzer sequence of `analyze_chart_image` (lines 39-71). -/
def runAnalyzers (o : CVOracle) (img : Image) : AnalysisResults :=
  { trend_analysis := analyzeTrendColors img
    existing_trade := detectExistingTrade img (o.tradeLines img)
    candlestick_patterns :=
      detectCandlestickPatterns (o.edgeVerticalCount img) (o.edgeHorizontalCount img) img
    support_resistance := findSupportResistanceLevels (o.srLines img)
    price_action := analyzePriceAction (o.contours img)
    volume_analysis := analyzeVolumePatterns (o.volumeCount img) img }

/-- The response envelope of `analyze_chart_image` (success flag, optional
error text, and the trading signal). -/
structure AnalyzeResponse where
  success : Bool
  error : Option String
  trading_signal : Signal
deriving DecidableEq

/-- The safe-default signal embedded in `_create_error_response`. -/
def safeDefaultSignal : Signal :=
  { isSignal := true
    confidence := 0.75
    symbol := "ETH"
    side := "sell"
    entryPrice := none
    stopLoss := none
    takeProfit := none
    stopLossPercent := 0.5
    takeProfitPercent := 2.0
    quantity := 0.1
    leverage := 1
    method := "python_error_fallback" }

/-- `_create_error_response`. -/
def createErrorResponse (error_message : String) : AnalyzeResponse :=
  { success := false
    error := some error_message
    trading_signal := safeDefaultSignal }

def failedDecodeMsg : String := "Failed to decode image"

/-- `analyze_chart_image`: decode, run the analyzers, fuse.  A decode failure
produces the standardized error response. -/
def analyzeChartImage (dec : DecodeOracle) (cv : CVOracle) (image_data : String) :
    AnalyzeResponse :=
  match decodeImage dec image_data with
  | none => createErrorResponse failedDecodeMsg
  | some img =>
      { success := true
        error := none
        trading_signal := generateTradingSignal (runAnalyzers cv img) }

/-! ### Claim-side reference definitions
These restate, in the claims' own words, the weighted-fusion quantities; the
claim theorems compare the source embedding against them. -/

/-- Claim C6's accumulated weighted score: 0.4 × trend confidence when the
trend is bullish or bearish, plus 0.3 × pattern confidence when a pattern was
detected, plus 0.2 × price-action strength when the price action is upward or
downward, plus 0.1 when support/resistance is present. -/
def claimRawScore (a : AnalysisResults) : ℚ :=
  (if a.trend_analysis.trend = "bullish" ∨ a.trend_analysis.trend = "bearish"
    then 0.4 * a.trend_analysis.confidence else 0) +
  (if a.candlestick_patterns.pattern_detected
    then 0.3 * a.candlestick_patterns.confidence else 0) +
  (if a.price_action.trend_direction = "upward" ∨ a.price_action.trend_direction = "downward"
    then 0.2 * a.price_action.trend_strength else 0) +
  (if a.support_resistance.has_support_resistance then 0.1 else 0)

/-- Claim C6's direction: set by a bullish/bearish trend, else by an
upward/downward price action, else unset. -/
def claimDirection (a : AnalysisResults) : Option String :=
  if a.trend_analysis.trend = "bearish" then some sideSell
  else if a.trend_analysis.trend = "bullish" then some sideBuy
  else if a.price_action.trend_direction = "downward" then some sideSell
  else if a.price_action.trend_direction = "upward" then some sideBuy
  else none

/-- Claim C6's score after the default-bearish adjustment: when no direction
was set the score is raised to at least 0.7. -/
def claimScore (a : AnalysisResults) : ℚ :=
  match claimDirection a with
  | none => max 0.7 (claimRawScore a)
  | some _ => claimRawScore a

/-! ### Concrete instances used by witnesses and counterexamples -/

/-- The all-black raster of claim C8: every pixel is HSV `(0,0,0)`. -/
def blackImage (h w : ℕ) : Image :=
  ⟨h, w, List.replicate (h * w) ⟨0, 0, 0⟩⟩

/-- An oracle whose opaque OpenCV results are all empty/zero — the behaviour
of Canny/Hough/morphology/findContours on an all-zero raster. -/
def emptyOracle : CVOracle :=
  { tradeLines := fun _ => []
    srLines := fun _ => []
    edgeVerticalCount := fun _ => 0
    edgeHorizontalCount := fun _ => 0
    contours := fun _ => []
    volumeCount := fun _ => 0 }

def neutralTrendRec : TrendAnalysis := ⟨"neutral", 0.5, 0, 0, "red"⟩
def noTradeRec : ExistingTrade := ⟨false, "new_signal", none, 0⟩
def copyTradeRec : ExistingTrade := ⟨true, "copy_existing_setup", some ⟨0.8, 0.6, 1, 1⟩, 0.9⟩
def followTradeRec : ExistingTrade := ⟨true, "follow_existing", none, 0.9⟩
def noPatternRec : PatternAnalysis := ⟨false, "no_clear_pattern", 0.3, 0⟩
def noSRRec : SupportResistance := ⟨0, [], false⟩
def unclearPriceRec : PriceAction := ⟨"unclear", 0.3, 0, 0⟩
def noVolumeRec : VolumeAnalysis := ⟨false, "no_volume_visible", 0⟩

/-- A fully neutral analysis record (no existing trade). -/
def baseResults : AnalysisResults :=
  ⟨neutralTrendRec, noTradeRec, noPatternRec, noSRRec, unclearPriceRec, noVolumeRec⟩

/-- The neutral record with a detected copy-mode trade. -/
def copyResults : AnalysisResults :=
  ⟨neutralTrendRec, copyTradeRec, noPatternRec, noSRRec, unclearPriceRec, noVolumeRec⟩

/-- The neutral record with a detected legacy follow-mode trade. -/
def followResults : AnalysisResults :=
  ⟨neutralTrendRec, followTradeRec, noPatternRec, noSRRec, unclearPriceRec, noVolumeRec⟩

/-- A saturated green pixel (hue 60 lies in the bullish band). -/
def greenPixel : HSV := ⟨60, 200, 200⟩

/-- A 1×2 all-green raster: green fraction 1, red fraction 0. -/
def greenImage : Image := ⟨1, 2, [greenPixel, greenPixel]⟩

/-- A saturated blue pixel (hue 115 lies in the blue marker band). -/
def bluePixel : HSV := ⟨115, 200, 200⟩

/-- A 1×2 all-blue raster: blue marker density 1. -/
def blueImage : Image := ⟨1, 2, [bluePixel, bluePixel]⟩

/-- Counterexample level for C4: a level 57 rows above the midpoint of a
1000-row image, so that the clamped linear scale gives 0.57, which the source
then rounds to 0.6. -/
def cexLevelAbove : TradeLevel := ⟨443, 443/1000, 300, 3/10⟩

/-- Counterexample level for C4: a level 100 rows below the midpoint. -/
def cexLevelBelow : TradeLevel := ⟨600, 600/1000, 300, 3/10⟩

def cexLevels : List TradeLevel := [cexLevelAbove, cexLevelBelow]

/-- Counterexample segments for C7: a long and then a short horizontal
segment; discovery-order strength gives the long one 0.0 and the short one
0.1. -/
def cexSegLong : Segment := ⟨0, 10, 400, 10⟩
def cexSegShort : Segment := ⟨0, 20, 100, 20⟩
def cexSRSegments : List Segment := [cexSegLong, cexSegShort]

/-- A decode oracle whose base64 step yields a 10-byte payload. -/
def smallPayloadOracle : DecodeOracle :=
  { b64 := fun _ => some (List.replicate 10 0)
    pil := fun _ => none
    cvFallback := fun _ => none }

def miniPayload : String := "abcd"

/-! ### Helper lemmas -/

theorem roundHalfEven_ge_int (n : ℤ) (x : ℚ) (h : (n : ℚ) ≤ x) : n ≤ roundHalfEven x := by
  have hf : n ≤ ⌊x⌋ := Int.le_floor.mpr h
  simp only [roundHalfEven]
  split_ifs <;> omega

theorem roundHalfEven_le_int (n : ℤ) (x : ℚ) (h : x ≤ (n : ℚ)) : roundHalfEven x ≤ n := by
  have hfl : ⌊x⌋ ≤ n := by
    have h1 : (⌊x⌋ : ℚ) ≤ x := Int.floor_le x
    have h2 : (⌊x⌋ : ℚ) ≤ (n : ℚ) := le_trans h1 h
    exact_mod_cast h2
  have hlow : (⌊x⌋ : ℚ) ≤ x := Int.floor_le x
  simp only [roundHalfEven]
  split_ifs with h1 h2 h3
  · omega
  · have hx : (⌊x⌋ : ℚ) + 1/2 ≤ x := by linarith [not_lt.mp h1]
    have : (⌊x⌋ : ℚ) < (n : ℚ) := by linarith
    have : ⌊x⌋ < n := by exact_mod_cast this
    omega
  · omega
  · have hx : (⌊x⌋ : ℚ) + 1/2 ≤ x := by linarith [not_lt.mp h1]
    have : (⌊x⌋ : ℚ) < (n : ℚ) := by linarith
    have : ⌊x⌋ < n := by exact_mod_cast this
    omega

theorem round1_ge (m : ℤ) (x : ℚ) (h : (m : ℚ) ≤ x * 10) : (m : ℚ) / 10 ≤ round1 x := by
  have h1 : m ≤ roundHalfEven (x * 10) := roundHalfEven_ge_int m (x * 10) h
  have h2 : (m : ℚ) ≤ ((roundHalfEven (x * 10) : ℤ) : ℚ) := by exact_mod_cast h1
  unfold round1
  linarith

theorem round1_le (m : ℤ) (x : ℚ) (h : x * 10 ≤ (m : ℚ)) : round1 x ≤ (m : ℚ) / 10 := by
  have h1 : roundHalfEven (x * 10) ≤ m := roundHalfEven_le_int m (x * 10) h
  have h2 : ((roundHalfEven (x * 10) : ℤ) : ℚ) ≤ (m : ℚ) := by exact_mod_cast h1
  unfold round1
  linarith

theorem foldlMin_spec {α : Type} (k : α → ℚ) :
    ∀ (t : List α) (b : α),
      ((t.foldl (fun c y => if k y < k c then y else c) b) = b ∨
        (t.foldl (fun c y => if k y < k c then y else c) b) ∈ t) ∧
      k (t.foldl (fun c y => if k y < k c then y else c) b) ≤ k b ∧
      ∀ y ∈ t, k (t.foldl (fun c y => if k y < k c then y else c) b) ≤ k y := by
  intro t
  induction t with
  | nil => intro b; simp
  | cons a t ih =>
      intro b
      simp only [List.foldl_cons]
      by_cases h : k a < k b
      · simp only [if_pos h]
        obtain ⟨hmem, hle, hall⟩ := ih a
        refine ⟨?_, ?_, ?_⟩
        · rcases hmem with h1 | h1
          · exact Or.inr (by simp [h1])
          · exact Or.inr (List.mem_cons_of_mem a h1)
        · exact le_trans hle (le_of_lt h)
        · intro y hy
          rcases List.mem_cons.mp hy with h1 | h1
          · exact h1 ▸ hle
          · exact hall y h1
      · simp only [if_neg h]
        obtain ⟨hmem, hle, hall⟩ := ih b
        refine ⟨?_, ?_, ?_⟩
        · rcases hmem with h1 | h1
          · exact Or.inl h1
          · exact Or.inr (List.mem_cons_of_mem a h1)
        · exact hle
        · intro y hy
          rcases List.mem_cons.mp hy with h1 | h1
          · exact h1 ▸ le_trans hle (not_lt.mp h)
          · exact hall y h1

theorem pyMinBy_spec {α : Type} (k : α → ℚ) (l : List α) (x : α)
    (hx : pyMinBy k l = some x) : x ∈ l ∧ ∀ y ∈ l, k x ≤ k y := by
  match l with
  | [] => simp [pyMinBy] at hx
  | a :: t =>
      simp only [pyMinBy, Option.some.injEq] at hx
      obtain ⟨hmem, hle, hall⟩ := foldlMin_spec k t a
      subst hx
      refine ⟨?_, ?_⟩
      · rcases hmem with h1 | h1
        · simp [h1]
        · exact List.mem_cons_of_mem a h1
      · intro y hy
        rcases List.mem_cons.mp hy with h1 | h1
        · exact h1 ▸ hle
        · exact hall y h1

theorem pyMinBy_isSome {α : Type} (k : α → ℚ) (l : List α) (hl : l ≠ []) :
    ∃ x, pyMinBy k l = some x := by
  match l with
  | [] => exact absurd rfl hl
  | a :: t => exact ⟨_, rfl⟩

theorem greenFrac_nonneg (img : Image) : 0 ≤ greenFrac img := by
  unfold greenFrac totalPixels
  positivity

theorem redFrac_nonneg (img : Image) : 0 ≤ redFrac img := by
  unfold redFrac totalPixels
  positivity

set_option maxHeartbeats 2000000 in
theorem weightedSignalOf_eq (a : AnalysisResults) :
    weightedSignalOf a =
      { isSignal := true
        confidence := max 0.75 (claimScore a)
        symbol := "ETH"
        side := (claimDirection a).getD sideSell
        entryPrice := none
        stopLoss := none
        takeProfit := none
        stopLossPercent := if (claimDirection a).getD sideSell = "sell" then 0.5 else -0.5
        takeProfitPercent := if (claimDirection a).getD sideSell = "sell" then -2.0 else 2.0
        quantity := 0.1
        leverage := 1
        method := "python_computer_vision" } := by
  by_cases h1 : a.trend_analysis.trend = "bearish" <;>
  by_cases h2 : a.trend_analysis.trend = "bullish" <;>
  by_cases h3 : a.candlestick_patterns.pattern_detected = true <;>
  by_cases h4 : a.price_action.trend_direction = "downward" <;>
  by_cases h5 : a.price_action.trend_direction = "upward" <;>
  by_cases h6 : a.support_resistance.has_support_resistance = true <;>
  simp [weightedSignalOf, claimScore, claimDirection, claimRawScore, sideSell, sideBuy,
    h1, h2, h3, h4, h5, h6]

theorem claimDirection_cases (a : AnalysisResults) :
    claimDirection a = none ∨ claimDirection a = some sideSell ∨
      claimDirection a = some sideBuy := by
  unfold claimDirection
  split_ifs <;> simp

theorem generate_eq_weighted (a : AnalysisResults)
    (h : a.existing_trade.has_existing_trade = false) :
    generateTradingSignal a = weightedSignalOf a := by
  simp [generateTradingSignal, h]

theorem generate_eq_copy (a : AnalysisResults)
    (h : a.existing_trade.has_existing_trade = true)
    (ht : a.existing_trade.trade_type = "copy_existing_setup") :
    generateTradingSignal a = copySignalOf a.existing_trade := by
  simp [generateTradingSignal, h, ht]

theorem generate_eq_follow (a : AnalysisResults)
    (h : a.existing_trade.has_existing_trade = true)
    (ht : a.existing_trade.trade_type ≠ "copy_existing_setup") :
    generateTradingSignal a = followSignal := by
  simp [generateTradingSignal, h, ht]

theorem blackPixel_notInRange (lo hi : HSV) (hs : 0 < lo.s) :
    inRangeHSV lo hi ⟨0, 0, 0⟩ = false := by
  simp only [inRangeHSV, decide_eq_false_iff_not]
  intro hcon
  omega

theorem countInRange_black (h w : ℕ) (lo hi : HSV) (hs : 0 < lo.s) :
    countInRange (blackImage h w) lo hi = 0 := by
  unfold countInRange blackImage
  simp only
  induction h * w with
  | zero => rfl
  | succ n ih =>
      rw [List.replicate_succ, List.filter_cons]
      rw [blackPixel_notInRange lo hi hs]
      simpa using ih

theorem countInRange2_black (h w : ℕ) (lo1 hi1 lo2 hi2 : HSV)
    (hs1 : 0 < lo1.s) (hs2 : 0 < lo2.s) :
    countInRange2 (blackImage h w) lo1 hi1 lo2 hi2 = 0 := by
  unfold countInRange2 blackImage
  simp only
  induction h * w with
  | zero => rfl
  | succ n ih =>
      rw [List.replicate_succ, List.filter_cons]
      rw [blackPixel_notInRange lo1 hi1 hs1, blackPixel_notInRange lo2 hi2 hs2]
      simpa using ih

theorem detectHorizontalLevels_length (height width : ℕ) (lines : List Segment) :
    (detectHorizontalLevels height width lines).length =
      (lines.filter (fun s => isTradeHorizontal width s)).length := by
  unfold detectHorizontalLevels
  rw [List.length_mergeSort, List.length_map]

theorem detectHorizontalLevels_strength (height width : ℕ) (lines : List Segment)
    (l : TradeLevel) (hl : l ∈ detectHorizontalLevels height width lines) :
    l.strength = (l.length : ℚ) / (width : ℚ) := by
  unfold detectHorizontalLevels at hl
  rw [List.mem_mergeSort] at hl
  obtain ⟨s, _, hs⟩ := List.mem_map.mp hl
  rw [← hs]
  rfl

theorem srScan_strength (lines : List Segment) :
    ∀ (acc : List SRLevel),
      (∀ (k : ℕ) (hk : k < acc.length), (acc[k]).strength = min 1 ((k : ℚ) * 0.1)) →
      ∀ (k : ℕ) (hk : k < (srScan lines acc).length),
        ((srScan lines acc)[k]).strength = min 1 ((k : ℚ) * 0.1) := by
  induction lines with
  | nil => intro acc hacc; exact hacc
  | cons s rest ih =>
      intro acc hacc
      simp only [srScan]
      split
      · apply ih
        intro k hk
        rw [List.length_append, List.length_singleton] at hk
        by_cases hc : k < acc.length
        · rw [List.getElem_append_left hc]
          exact hacc k hc
        · have hk2 : acc.length ≤ k := not_lt.mp hc
          have hke : k = acc.length := by omega
          rw [List.getElem_append_right hk2]
          subst hke
          simp only [Nat.sub_self, List.getElem_singleton]
          norm_num
      · exact ih acc hacc

theorem srHorizontalLines_strength (lines : List Segment) (k : ℕ)
    (hk : k < (srHorizontalLines lines).length) :
    ((srHorizontalLines lines)[k]).strength = min 1 ((k : ℚ) * 0.1) :=
  srScan_strength lines [] (by intro j hj; simp at hj) k hk

/-! ### Claim theorems -/

/-- C1: every execution path of signal generation yields confidence at least
0.75: the copy path emits exactly 0.95, the follow path exactly 0.9, the
weighted path `max 0.75 score` (a floor), the fusion internal-error fallback
0.8 and the decode-error safe default 0.75. -/
theorem C1_confidence_floor :
    (∀ a : AnalysisResults, (0.75 : ℚ) ≤ (generateTradingSignal a).confidence) ∧
    (∀ a : AnalysisResults, a.existing_trade.has_existing_trade = true →
      ((a.existing_trade.trade_type = "copy_existing_setup" →
          (generateTradingSignal a).confidence = 0.95) ∧
        (a.existing_trade.trade_type ≠ "copy_existing_setup" →
          (generateTradingSignal a).confidence = 0.9))) ∧
    (∀ a : AnalysisResults, a.existing_trade.has_existing_trade = false →
      (generateTradingSignal a).confidence = max 0.75 (claimScore a)) ∧
    fusionFallbackSignal.confidence = 0.8 ∧
    (∀ m : String, (createErrorResponse m).trading_signal.confidence = 0.75) := by
  refine ⟨?_, ?_, ?_, rfl, fun m => rfl⟩
  · intro a
    unfold generateTradingSignal
    split_ifs with h1 h2
    · norm_num [copySignalOf]
    · norm_num [followSignal]
    · rw [weightedSignalOf_eq]
      exact le_max_left _ _
  · intro a ha
    refine ⟨fun ht => ?_, fun ht => ?_⟩
    · rw [generate_eq_copy a ha ht]; rfl
    · rw [generate_eq_follow a ha ht]; rfl
  · intro a ha
    rw [generate_eq_weighted a ha, weightedSignalOf_eq]

/-- C1 witness: the floor and each constant-confidence path evaluated at
concrete analysis records. -/
theorem C1_confidence_floor_witness :
    (0.75 : ℚ) ≤ (generateTradingSignal baseResults).confidence ∧
    (generateTradingSignal copyResults).confidence = 0.95 ∧
    (generateTradingSignal followResults).confidence = 0.9 ∧
    (generateTradingSignal baseResults).confidence = max 0.75 (claimScore baseResults) ∧
    fusionFallbackSignal.confidence = 0.8 ∧
    (createErrorResponse failedDecodeMsg).trading_signal.confidence = 0.75 :=
  ⟨C1_confidence_floor.1 baseResults,
    (C1_confidence_floor.2.1 copyResults rfl).1 rfl,
    (C1_confidence_floor.2.1 followResults rfl).2 (by decide),
    C1_confidence_floor.2.2.1 baseResults rfl,
    C1_confidence_floor.2.2.2.1,
    C1_confidence_floor.2.2.2.2 failedDecodeMsg⟩

/-- C2: when the detector reported an existing trade, signal generation is a
function of the existing-trade record alone (the weighted scores are never
consulted); the copy sub-mode yields side `copy`, confidence 0.95, null entry
and offsets from the derived trade parameters (defaults 0.5/1.5 when absent),
any other sub-mode yields side `follow`, confidence 0.9, null entry and fixed
0.5/1.5 offsets. -/
theorem C2_short_circuit :
    ∀ a : AnalysisResults, a.existing_trade.has_existing_trade = true →
      ((∀ b : AnalysisResults, b.existing_trade = a.existing_trade →
          generateTradingSignal b = generateTradingSignal a) ∧
        (a.existing_trade.trade_type = "copy_existing_setup" →
          (generateTradingSignal a).side = "copy" ∧
          (generateTradingSignal a).confidence = 0.95 ∧
          (generateTradingSignal a).entryPrice = none ∧
          (generateTradingSignal a).stopLossPercent =
            (match a.existing_trade.trade_parameters with
              | some p => p.stop_loss_percent
              | none => 0.5) ∧
          (generateTradingSignal a).takeProfitPercent =
            (match a.existing_trade.trade_parameters with
              | some p => p.take_profit_percent
              | none => 1.5)) ∧
        (a.existing_trade.trade_type ≠ "copy_existing_setup" →
          (generateTradingSignal a).side = "follow" ∧
          (generateTradingSignal a).confidence = 0.9 ∧
          (generateTradingSignal a).entryPrice = none ∧
          (generateTradingSignal a).stopLossPercent = 0.5 ∧
          (generateTradingSignal a).takeProfitPercent = 1.5)) := by
  intro a ha
  refine ⟨?_, fun ht => ?_, fun ht => ?_⟩
  · intro b hb
    unfold generateTradingSignal
    rw [hb, ha]
    simp
  · rw [generate_eq_copy a ha ht]
    unfold copySignalOf
    exact ⟨rfl, rfl, rfl, rfl, rfl⟩
  · rw [generate_eq_follow a ha ht]
    exact ⟨rfl, rfl, rfl, rfl, rfl⟩

/-- C2 witness: copy and follow records evaluated concretely. -/
theorem C2_short_circuit_witness :
    (generateTradingSignal copyResults).side = "copy" ∧
    (generateTradingSignal copyResults).confidence = 0.95 ∧
    (generateTradingSignal copyResults).stopLossPercent = 0.8 ∧
    (generateTradingSignal copyResults).takeProfitPercent = 0.6 ∧
    (generateTradingSignal followResults).side = "follow" ∧
    (generateTradingSignal followResults).stopLossPercent = 0.5 := by
  have hc := (C2_short_circuit copyResults rfl).2.1 rfl
  have hf := (C2_short_circuit followResults rfl).2.2 (by decide)
  exact ⟨hc.1, hc.2.1, by rw [hc.2.2.2.1]; rfl, by rw [hc.2.2.2.2]; rfl, hf.1, hf.2.2.2.1⟩

/-- C10: on every execution path — copy, follow, weighted, fusion fallback
and decode-error fallback — the emitted signal has `isSignal = true`,
symbol `ETH`, quantity 0.1, leverage 1 and a null entry price, independently
of the analysis input. -/
theorem C10_constant_fields :
    (∀ a : AnalysisResults,
        (generateTradingSignal a).isSignal = true ∧
        (generateTradingSignal a).symbol = "ETH" ∧
        (generateTradingSignal a).quantity = 0.1 ∧
        (generateTradingSignal a).leverage = 1 ∧
        (generateTradingSignal a).entryPrice = none) ∧
    (fusionFallbackSignal.isSignal = true ∧ fusionFallbackSignal.symbol = "ETH" ∧
      fusionFallbackSignal.quantity = 0.1 ∧ fusionFallbackSignal.leverage = 1 ∧
      fusionFallbackSignal.entryPrice = none) ∧
    (safeDefaultSignal.isSignal = true ∧ safeDefaultSignal.symbol = "ETH" ∧
      safeDefaultSignal.quantity = 0.1 ∧ safeDefaultSignal.leverage = 1 ∧
      safeDefaultSignal.entryPrice = none) := by
  refine ⟨?_, ⟨rfl, rfl, rfl, rfl, rfl⟩, ⟨rfl, rfl, rfl, rfl, rfl⟩⟩
  intro a
  unfold generateTradingSignal
  split_ifs with h1 h2
  · exact ⟨rfl, rfl, rfl, rfl, rfl⟩
  · exact ⟨rfl, rfl, rfl, rfl, rfl⟩
  · rw [weightedSignalOf_eq]
    exact ⟨rfl, rfl, rfl, rfl, rfl⟩

/-- C3: the existing-trade detector fires exactly when blue-marker density
exceeds 0.002, or purple-marker density exceeds 0.001, or at least 3
near-horizontal levels (vertical deviation ≤ 3 pixels, length at least
width/4) were found; in particular with fewer than 3 levels and both
densities at or below threshold it reports no existing trade. -/
theorem C3_trigger_rule :
    ∀ (img : Image) (lines : List Segment),
      ((detectExistingTrade img lines).has_existing_trade = true ↔
        (blueDensity img > 0.002 ∨ purpleDensity img > 0.001 ∨
          3 ≤ (lines.filter (fun s =>
            decide ((s.y2 - s.y1).natAbs ≤ 3 ∧ img.width / 4 ≤ (s.x2 - s.x1).natAbs))).length)) ∧
      ((lines.filter (fun s =>
            decide ((s.y2 - s.y1).natAbs ≤ 3 ∧ img.width / 4 ≤ (s.x2 - s.x1).natAbs))).length < 3 →
        blueDensity img ≤ 0.002 → purpleDensity img ≤ 0.001 →
        (detectExistingTrade img lines).has_existing_trade = false) := by
  intro img lines
  have hlen : (detectHorizontalLevels img.height img.width lines).length =
      (lines.filter (fun s =>
        decide ((s.y2 - s.y1).natAbs ≤ 3 ∧ img.width / 4 ≤ (s.x2 - s.x1).natAbs))).length := by
    rw [detectHorizontalLevels_length]
    rfl
  constructor
  · simp only [detectExistingTrade]
    split_ifs with h
    · simp only [true_iff]
      rw [Bool.or_eq_true, Bool.or_eq_true, decide_eq_true_eq, decide_eq_true_eq,
        decide_eq_true_eq, hlen] at h
      tauto
    · simp only [Bool.or_eq_true, decide_eq_true_eq, not_or] at h
      rw [hlen] at h
      simp only [false_iff, not_or]
      tauto
  · intro hcount hblue hpurple
    simp only [detectExistingTrade]
    split_ifs with h
    · exfalso
      rw [Bool.or_eq_true, Bool.or_eq_true, decide_eq_true_eq, decide_eq_true_eq,
        decide_eq_true_eq, hlen] at h
      rcases h with (h | h) | h
      · exact absurd h (not_lt.mpr hblue)
      · exact absurd h (not_lt.mpr hpurple)
      · omega
    · rfl

/-- C3 witness: a saturated blue image triggers the detector with no lines at
all; an all-green image with no lines does not. -/
theorem C3_trigger_rule_witness :
    (detectExistingTrade blueImage []).has_existing_trade = true ∧
    (detectExistingTrade greenImage []).has_existing_trade = false := by
  have hb : countInRange blueImage blueLower blueUpper = 2 := rfl
  have hg1 : countInRange greenImage blueLower blueUpper = 0 := rfl
  have hg2 : countInRange greenImage purpleLower purpleUpper = 0 := rfl
  constructor
  · refine ((C3_trigger_rule blueImage []).1).mpr (Or.inl ?_)
    unfold blueDensity totalPixels
    rw [hb]
    norm_num [blueImage]
  · refine (C3_trigger_rule greenImage []).2 (by simp) ?_ ?_
    · unfold blueDensity totalPixels
      rw [hg1]
      norm_num
    · unfold purpleDensity totalPixels
      rw [hg2]
      norm_num

/-- Branch lemma: the bullish case of the trend analyzer. -/
theorem trend_bull_case (img : Image)
    (h1 : greenFrac img > redFrac img ∧ greenFrac img > 0.02) :
    (analyzeTrendColors img).trend = "bullish" ∧
    (analyzeTrendColors img).confidence = min 0.95 (0.6 + greenFrac img * 5) := by
  simp only [analyzeTrendColors]
  rw [if_pos h1]
  exact ⟨rfl, rfl⟩

/-- Branch lemma: the bearish case of the trend analyzer. -/
theorem trend_bear_case (img : Image)
    (h1 : ¬(greenFrac img > redFrac img ∧ greenFrac img > 0.02))
    (h2 : redFrac img > greenFrac img ∧ redFrac img > 0.02) :
    (analyzeTrendColors img).trend = "bearish" ∧
    (analyzeTrendColors img).confidence = min 0.95 (0.6 + redFrac img * 5) := by
  simp only [analyzeTrendColors]
  rw [if_neg h1, if_pos h2]
  exact ⟨rfl, rfl⟩

/-- Branch lemma: the neutral case of the trend analyzer. -/
theorem trend_neutral_case (img : Image)
    (h1 : ¬(greenFrac img > redFrac img ∧ greenFrac img > 0.02))
    (h2 : ¬(redFrac img > greenFrac img ∧ redFrac img > 0.02)) :
    (analyzeTrendColors img).trend = "neutral" ∧
    (analyzeTrendColors img).confidence = 0.5 := by
  simp only [analyzeTrendColors]
  rw [if_neg h1, if_neg h2]
  exact ⟨rfl, rfl⟩

/-- C5: the trend analyzer labels "bullish" exactly when the green fraction
strictly exceeds both the red fraction and 0.02, "bearish" symmetrically, and
otherwise "neutral" with confidence exactly 0.5; non-neutral confidence is
`min 0.95 (0.6 + winning_fraction * 5)`, which is at least 0.6. -/
theorem C5_trend_rule (img : Image) :
    ((analyzeTrendColors img).trend = "bullish" ↔
      (greenFrac img > redFrac img ∧ greenFrac img > 0.02)) ∧
    ((analyzeTrendColors img).trend = "bearish" ↔
      (redFrac img > greenFrac img ∧ redFrac img > 0.02)) ∧
    (¬(greenFrac img > redFrac img ∧ greenFrac img > 0.02) →
      ¬(redFrac img > greenFrac img ∧ redFrac img > 0.02) →
      (analyzeTrendColors img).trend = "neutral" ∧
        (analyzeTrendColors img).confidence = 0.5) ∧
    ((analyzeTrendColors img).trend = "bullish" →
      (analyzeTrendColors img).confidence = min 0.95 (0.6 + greenFrac img * 5) ∧
      0.6 ≤ (analyzeTrendColors img).confidence) ∧
    ((analyzeTrendColors img).trend = "bearish" →
      (analyzeTrendColors img).confidence = min 0.95 (0.6 + redFrac img * 5) ∧
      0.6 ≤ (analyzeTrendColors img).confidence) := by
  have hg := greenFrac_nonneg img
  have hr := redFrac_nonneg img
  by_cases h1 : greenFrac img > redFrac img ∧ greenFrac img > 0.02
  · obtain ⟨ht, hc⟩ := trend_bull_case img h1
    refine ⟨iff_of_true ht h1, ?_, ?_, ?_, ?_⟩
    · rw [ht]
      exact iff_of_false (by decide) (fun hx => lt_asymm h1.1 hx.1)
    · intro hn _
      exact absurd h1 hn
    · intro _
      refine ⟨hc, ?_⟩
      rw [hc]
      exact le_min (by norm_num) (by linarith)
    · intro hbear
      rw [ht] at hbear
      exact absurd hbear (by decide)
  · by_cases h2 : redFrac img > greenFrac img ∧ redFrac img > 0.02
    · obtain ⟨ht, hc⟩ := trend_bear_case img h1 h2
      refine ⟨?_, iff_of_true ht h2, ?_, ?_, ?_⟩
      · rw [ht]
        exact iff_of_false (by decide) h1
      · intro _ hn
        exact absurd h2 hn
      · intro hbull
        rw [ht] at hbull
        exact absurd hbull (by decide)
      · intro _
        refine ⟨hc, ?_⟩
        rw [hc]
        exact le_min (by norm_num) (by linarith)
    · obtain ⟨ht, hc⟩ := trend_neutral_case img h1 h2
      refine ⟨?_, ?_, fun _ _ => ⟨ht, hc⟩, ?_, ?_⟩
      · rw [ht]
        exact iff_of_false (by decide) h1
      · rw [ht]
        exact iff_of_false (by decide) h2
      · intro hbull
        rw [ht] at hbull
        exact absurd hbull (by decide)
      · intro hbear
        rw [ht] at hbear
        exact absurd hbear (by decide)

/-- C5 witness: the all-green raster is labelled bullish with saturated
confidence 0.95. -/
theorem C5_trend_rule_witness :
    (analyzeTrendColors greenImage).trend = "bullish" ∧
    (analyzeTrendColors greenImage).confidence = 0.95 := by
  have hgc : countInRange greenImage greenLower greenUpper = 2 := rfl
  have hrc : countInRange2 greenImage redLower1 redUpper1 redLower2 redUpper2 = 0 := rfl
  have hgv : greenFrac greenImage = 1 := by
    unfold greenFrac totalPixels
    rw [hgc]
    norm_num [greenImage]
  have hrv : redFrac greenImage = 0 := by
    unfold redFrac totalPixels
    rw [hrc]
    norm_num
  have h := C5_trend_rule greenImage
  have hbull : (analyzeTrendColors greenImage).trend = "bullish" :=
    (h.1).mpr (by rw [hgv, hrv]; norm_num)
  refine ⟨hbull, ?_⟩
  have hc := h.2.2.2.1 hbull
  rw [hc.1, hgv]
  norm_num

/-- C6: in the weighted path the confidence is `max 0.75` of the accumulated
claim score (trend 0.4, pattern 0.3, price action 0.2, support/resistance
0.1, with the default-sell floor 0.7), the side is the claim direction
defaulting to sell, the entry price is null, and the offsets are fixed by the
side alone: sell gives +0.5% stop / −2.0% target, buy the mirror image. -/
theorem C6_weighted_fusion :
    ∀ a : AnalysisResults, a.existing_trade.has_existing_trade = false →
      (generateTradingSignal a).confidence = max 0.75 (claimScore a) ∧
      (generateTradingSignal a).side = (claimDirection a).getD sideSell ∧
      (generateTradingSignal a).entryPrice = none ∧
      ((generateTradingSignal a).side = "sell" →
        (generateTradingSignal a).stopLossPercent = 0.5 ∧
        (generateTradingSignal a).takeProfitPercent = -2.0) ∧
      ((generateTradingSignal a).side = "buy" →
        (generateTradingSignal a).stopLossPercent = -0.5 ∧
        (generateTradingSignal a).takeProfitPercent = 2.0) ∧
      ((generateTradingSignal a).side = "sell" ∨ (generateTradingSignal a).side = "buy") := by
  intro a ha
  rw [generate_eq_weighted a ha, weightedSignalOf_eq]
  have hside : (claimDirection a).getD sideSell = "sell" ∨
      (claimDirection a).getD sideSell = "buy" := by
    rcases claimDirection_cases a with h | h | h <;> rw [h] <;> simp [sideSell, sideBuy]
  refine ⟨rfl, rfl, rfl, ?_, ?_, ?_⟩
  · intro hs
    simp only at hs
    rw [if_pos hs, if_pos hs]
    exact ⟨rfl, rfl⟩
  · intro hs
    simp only at hs
    have hne : ¬((claimDirection a).getD sideSell = "sell") := by
      rw [hs]
      decide
    rw [if_neg hne, if_neg hne]
    exact ⟨rfl, rfl⟩
  · simpa using hside

/-- C6 witness: the fully neutral record gets the default sell signal with
confidence 0.75 and the sell offsets. -/
theorem C6_weighted_fusion_witness :
    (generateTradingSignal baseResults).side = "sell" ∧
    (generateTradingSignal baseResults).confidence = max 0.75 (claimScore baseResults) ∧
    (generateTradingSignal baseResults).stopLossPercent = 0.5 ∧
    (generateTradingSignal baseResults).takeProfitPercent = -2.0 := by
  have h := C6_weighted_fusion baseResults rfl
  have hside : (generateTradingSignal baseResults).side = "sell" := by
    rw [h.2.1]
    rfl
  have hoff := h.2.2.2.1 hside
  exact ⟨hside, h.1, hoff.1, hoff.2⟩

/-- The counterexample segments pass the near-horizontal angle filter and the
loop assigns discovery-order strengths 0 and 0.1. -/
theorem cexSR_levels :
    srHorizontalLines cexSRSegments = [⟨10, 160000, 0⟩, ⟨20, 10000, 0.1⟩] := by
  have hcl : isNearHorizontalAngle ⟨0, 10, 400, 10⟩ = true := by
    simp only [isNearHorizontalAngle, tanFiveDegLB, decide_eq_true_eq]
    norm_num
  have hcs : isNearHorizontalAngle ⟨0, 20, 100, 20⟩ = true := by
    simp only [isNearHorizontalAngle, tanFiveDegLB, decide_eq_true_eq]
    norm_num
  unfold srHorizontalLines cexSRSegments
  simp [srScan, cexSegLong, cexSegShort, hcl, hcs]
  norm_num

/-- C7 counterexample: among the levels returned by the support/resistance
finder on two horizontal segments of lengths 400 and 100, the longer segment
carries strength 0 and the shorter strength 0.1: strength is not monotone in
segment length. -/
theorem C7_counterexample :
    ¬ (∀ l1 ∈ (findSupportResistanceLevels cexSRSegments).strong_levels,
        ∀ l2 ∈ (findSupportResistanceLevels cexSRSegments).strong_levels,
          l2.length_sq ≤ l1.length_sq → l2.strength ≤ l1.strength) := by
  intro hmon
  have hmem : ∀ l : SRLevel,
      (l ∈ (findSupportResistanceLevels cexSRSegments).strong_levels ↔
        l ∈ srHorizontalLines cexSRSegments) := by
    intro l
    simp only [findSupportResistanceLevels]
    rw [List.take_of_length_le (by rw [List.length_mergeSort, cexSR_levels]; norm_num),
      List.mem_mergeSort]
  have hA : (⟨10, 160000, 0⟩ : SRLevel) ∈
      (findSupportResistanceLevels cexSRSegments).strong_levels := by
    rw [hmem, cexSR_levels]
    simp
  have hB : (⟨20, 10000, 0.1⟩ : SRLevel) ∈
      (findSupportResistanceLevels cexSRSegments).strong_levels := by
    rw [hmem, cexSR_levels]
    simp
  have hbad := hmon _ hA _ hB (by norm_num)
  simp only at hbad
  norm_num at hbad

/-- C7 (amended): for the existing-trade detector's levels strength is
`length / width` and hence monotone in segment length; for the
support/resistance finder strength is `min 1 (0.1 × discovery index)`, which
is monotone in the discovery order of the accepted segments, not in their
length. -/
theorem C7_strength_amended :
    (∀ (height width : ℕ) (lines : List Segment) (l1 l2 : TradeLevel),
        l1 ∈ detectHorizontalLevels height width lines →
        l2 ∈ detectHorizontalLevels height width lines →
        l1.length ≤ l2.length → l1.strength ≤ l2.strength) ∧
    (∀ (lines : List Segment) (j k : ℕ) (hj : j < (srHorizontalLines lines).length)
        (hk : k < (srHorizontalLines lines).length), j ≤ k →
        ((srHorizontalLines lines)[j]).strength ≤ ((srHorizontalLines lines)[k]).strength) := by
  constructor
  · intro height width lines l1 l2 h1 h2 hle
    rw [detectHorizontalLevels_strength height width lines l1 h1,
      detectHorizontalLevels_strength height width lines l2 h2]
    rcases Nat.eq_zero_or_pos width with hw | hw
    · simp [hw]
    · have hc : (0 : ℚ) < (width : ℚ) := by exact_mod_cast hw
      have hcast : (l1.length : ℚ) ≤ (l2.length : ℚ) := by exact_mod_cast hle
      exact (div_le_div_iff_of_pos_right hc).mpr hcast
  · intro lines j k hj hk hjk
    rw [srHorizontalLines_strength lines j hj, srHorizontalLines_strength lines k hk]
    refine min_le_min (le_refl 1) ?_
    have : (j : ℚ) ≤ (k : ℚ) := by exact_mod_cast hjk
    nlinarith

/-- C7 witness: two levels of the existing-trade detector compare as the
amended monotonicity law states, and the discovery-order strengths of the
support/resistance counterexample levels are ordered by index. -/
theorem C7_strength_amended_witness :
    (tradeLevelOf 100 400 ⟨0, 30, 200, 30⟩).strength ≤
      (tradeLevelOf 100 400 ⟨0, 10, 400, 10⟩).strength ∧
    (SRLevel.strength ⟨10, 160000, 0⟩ : ℚ) ≤ SRLevel.strength ⟨20, 10000, 0.1⟩ := by
  constructor
  · have hmem1 : tradeLevelOf 100 400 ⟨0, 30, 200, 30⟩ ∈
        detectHorizontalLevels 100 400 [⟨0, 10, 400, 10⟩, ⟨0, 30, 200, 30⟩] := by
      unfold detectHorizontalLevels
      rw [List.mem_mergeSort]
      exact List.mem_map_of_mem _ (by decide)
    have hmem2 : tradeLevelOf 100 400 ⟨0, 10, 400, 10⟩ ∈
        detectHorizontalLevels 100 400 [⟨0, 10, 400, 10⟩, ⟨0, 30, 200, 30⟩] := by
      unfold detectHorizontalLevels
      rw [List.mem_mergeSort]
      exact List.mem_map_of_mem _ (by decide)
    exact C7_strength_amended.1 100 400 [⟨0, 10, 400, 10⟩, ⟨0, 30, 200, 30⟩] _ _
      hmem1 hmem2 (by decide)
  · have hj : 0 < (srHorizontalLines cexSRSegments).length := by
      rw [cexSR_levels]
      norm_num
    have hk : 1 < (srHorizontalLines cexSRSegments).length := by
      rw [cexSR_levels]
      norm_num
    have h := C7_strength_amended.2 cexSRSegments 0 1 hj hk (by norm_num)
    simp only [cexSR_levels] at h
    simpa using h

/-- C4 counterexample: for a 1000-row image with the nearest level 57 rows
above the midpoint, the claimed value `clamp(0.057 × 10, 0.5, 3.0) = 0.57`
differs from the returned `take_profit_percent`, because the source rounds
the clamped value to one decimal place (0.6). -/
theorem C4_counterexample :
    (extractTradeParameters cexLevels 1000).take_profit_percent = 0.6 ∧
    min 3.0 (max 0.5 (|cexLevelAbove.y_position - (1000 : ℚ) * 0.5| / 1000 * 10)) = 0.57 ∧
    (0.6 : ℚ) ≠ 0.57 := by
  have habove : levelsAbove cexLevels 1000 = [cexLevelAbove] := by
    unfold levelsAbove cexLevels
    rw [List.filter_cons, List.filter_cons]
    norm_num [cexLevelAbove, cexLevelBelow]
  have hbelow : levelsBelow cexLevels 1000 = [cexLevelBelow] := by
    unfold levelsBelow cexLevels
    rw [List.filter_cons, List.filter_cons]
    norm_num [cexLevelAbove, cexLevelBelow]
  refine ⟨?_, ?_, by norm_num⟩
  · simp only [extractTradeParameters, habove, hbelow, pyMinBy, List.foldl_nil]
    push_cast
    have hdistA : |cexLevelAbove.y_position - (1000 : ℚ) * 0.5| / 1000 = 0.057 := by
      norm_num [cexLevelAbove]
    rw [hdistA]
    rw [if_pos (by norm_num)]
    have hmin : min 3.0 (max 0.5 ((0.057 : ℚ) * 10)) = 0.57 := by norm_num
    rw [show ((57e-3 : ℚ) * 10) = (0.057 : ℚ) * 10 from by norm_num, hmin]
    unfold round1 roundHalfEven
    norm_num
  · norm_num [cexLevelAbove]

theorem round1_half : round1 0.5 = 0.5 := by
  unfold round1 roundHalfEven
  norm_num

theorem round1_threeHalves : round1 1.5 = 1.5 := by
  unfold round1 roundHalfEven
  norm_num

theorem round1_mem_03_2 (x : ℚ) (h1 : 0.3 ≤ x) (h2 : x ≤ 2.0) :
    0.3 ≤ round1 x ∧ round1 x ≤ 2.0 := by
  constructor
  · have h := round1_ge 3 x (by push_cast; linarith)
    exact le_trans (by norm_num) h
  · have h := round1_le 20 x (by push_cast; linarith)
    exact le_trans h (by norm_num)

theorem round1_mem_05_3 (x : ℚ) (h1 : 0.5 ≤ x) (h2 : x ≤ 3.0) :
    0.5 ≤ round1 x ∧ round1 x ≤ 3.0 := by
  constructor
  · have h := round1_ge 5 x (by push_cast; linarith)
    exact le_trans (by norm_num) h
  · have h := round1_le 30 x (by push_cast; linarith)
    exact le_trans h (by norm_num)

/-- C4 (amended): when both sides of the midpoint carry a level, the offsets
are the clamped linear maps of the nearest distances, rounded to one decimal
place (`round1`), i.e. take-profit = round1(clamp(dA/h × 10, 0.5, 3.0)) and
stop-loss = round1(clamp(dB/h × 8, 0.3, 2.0)); with a side missing, the
defaults 0.5 / 1.5 are returned; in all cases stop ∈ [0.3, 2.0] and
target ∈ [0.5, 3.0]. -/
theorem C4_trade_params_rounded :
    ∀ (levels : List TradeLevel) (image_height : ℕ),
      (∀ dA dB : ℚ,
        dA ∈ (levelsAbove levels image_height).map
            (fun l => |l.y_position - (image_height : ℚ) * 0.5|) →
        (∀ l ∈ levelsAbove levels image_height,
            dA ≤ |l.y_position - (image_height : ℚ) * 0.5|) →
        dB ∈ (levelsBelow levels image_height).map
            (fun l => |l.y_position - (image_height : ℚ) * 0.5|) →
        (∀ l ∈ levelsBelow levels image_height,
            dB ≤ |l.y_position - (image_height : ℚ) * 0.5|) →
        0 < image_height →
        (extractTradeParameters levels image_height).take_profit_percent =
          round1 (min 3.0 (max 0.5 (dA / (image_height : ℚ) * 10))) ∧
        (extractTradeParameters levels image_height).stop_loss_percent =
          round1 (min 2.0 (max 0.3 (dB / (image_height : ℚ) * 8)))) ∧
      ((levelsAbove levels image_height = [] ∨ levelsBelow levels image_height = []) →
        (extractTradeParameters levels image_height).stop_loss_percent = 0.5 ∧
        (extractTradeParameters levels image_height).take_profit_percent = 1.5) ∧
      (0.3 ≤ (extractTradeParameters levels image_height).stop_loss_percent ∧
        (extractTradeParameters levels image_height).stop_loss_percent ≤ 2.0 ∧
        0.5 ≤ (extractTradeParameters levels image_height).take_profit_percent ∧
        (extractTradeParameters levels image_height).take_profit_percent ≤ 3.0) := by
  intro levels image_height
  refine ⟨?_, ?_, ?_⟩
  · intro dA dB hmemA hminA hmemB hminB hpos
    have hA_ne : levelsAbove levels image_height ≠ [] := by
      intro he
      rw [he] at hmemA
      simp at hmemA
    have hB_ne : levelsBelow levels image_height ≠ [] := by
      intro he
      rw [he] at hmemB
      simp at hmemB
    obtain ⟨ca, hca⟩ :=
      pyMinBy_isSome (fun l => |l.y_position - (image_height : ℚ) * 0.5|) _ hA_ne
    obtain ⟨cb, hcb⟩ :=
      pyMinBy_isSome (fun l => |l.y_position - (image_height : ℚ) * 0.5|) _ hB_ne
    obtain ⟨hcaMem, hcaMin⟩ := pyMinBy_spec _ _ _ hca
    obtain ⟨hcbMem, hcbMin⟩ := pyMinBy_spec _ _ _ hcb
    obtain ⟨lA, hlA, hlAeq⟩ := List.mem_map.mp hmemA
    obtain ⟨lB, hlB, hlBeq⟩ := List.mem_map.mp hmemB
    have hdA : |ca.y_position - (image_height : ℚ) * 0.5| = dA :=
      le_antisymm (hlAeq ▸ hcaMin lA hlA) (hminA ca hcaMem)
    have hdB : |cb.y_position - (image_height : ℚ) * 0.5| = dB :=
      le_antisymm (hlBeq ▸ hcbMin lB hlB) (hminB cb hcbMem)
    have hcaLt : ca.y_position < (image_height : ℚ) * 0.5 := by
      unfold levelsAbove at hcaMem
      have := (List.mem_filter.mp hcaMem).2
      simpa using this
    have hcbGt : cb.y_position > (image_height : ℚ) * 0.5 := by
      unfold levelsBelow at hcbMem
      have := (List.mem_filter.mp hcbMem).2
      simpa using this
    have hhpos : (0 : ℚ) < (image_height : ℚ) := by exact_mod_cast hpos
    have hposA : 0 < |ca.y_position - (image_height : ℚ) * 0.5| / (image_height : ℚ) :=
      div_pos (abs_pos.mpr (sub_ne_zero.mpr (ne_of_lt hcaLt))) hhpos
    have hposB : 0 < |cb.y_position - (image_height : ℚ) * 0.5| / (image_height : ℚ) :=
      div_pos (abs_pos.mpr (sub_ne_zero.mpr (ne_of_gt hcbGt))) hhpos
    simp only [extractTradeParameters, hca, hcb]
    rw [if_pos hposA, if_pos hposB, hdA, hdB]
    exact ⟨rfl, rfl⟩
  · intro hempty
    rcases hempty with he | he
    · have hnone : pyMinBy (fun l => |l.y_position - (image_height : ℚ) * 0.5|)
          (levelsAbove levels image_height) = none := by
        rw [he]
        rfl
      simp only [extractTradeParameters, hnone]
      exact ⟨round1_half, round1_threeHalves⟩
    · have hnone : pyMinBy (fun l => |l.y_position - (image_height : ℚ) * 0.5|)
          (levelsBelow levels image_height) = none := by
        rw [he]
        rfl
      rcases hx : pyMinBy (fun l => |l.y_position - (image_height : ℚ) * 0.5|)
          (levelsAbove levels image_height) with _ | ca
      · simp only [extractTradeParameters, hx, hnone]
        exact ⟨round1_half, round1_threeHalves⟩
      · simp only [extractTradeParameters, hx, hnone]
        exact ⟨round1_half, round1_threeHalves⟩
  · rcases hx : pyMinBy (fun l => |l.y_position - (image_height : ℚ) * 0.5|)
        (levelsAbove levels image_height) with _ | ca <;>
    rcases hy : pyMinBy (fun l => |l.y_position - (image_height : ℚ) * 0.5|)
        (levelsBelow levels image_height) with _ | cb <;>
    simp only [extractTradeParameters, hx, hy]
    · rw [round1_half, round1_threeHalves]
      norm_num
    · rw [round1_half, round1_threeHalves]
      norm_num
    · rw [round1_half, round1_threeHalves]
      norm_num
    · have hsl : 0.3 ≤ (if 0 < |cb.y_position - (image_height : ℚ) * 0.5| / (image_height : ℚ)
            then min 2.0 (max 0.3 (|cb.y_position - (image_height : ℚ) * 0.5| /
              (image_height : ℚ) * 8)) else 0.5) ∧
          (if 0 < |cb.y_position - (image_height : ℚ) * 0.5| / (image_height : ℚ)
            then min 2.0 (max 0.3 (|cb.y_position - (image_height : ℚ) * 0.5| /
              (image_height : ℚ) * 8)) else 0.5) ≤ 2.0 := by
        split_ifs
        · exact ⟨le_min (by norm_num) (le_max_left _ _), min_le_left _ _⟩
        · norm_num
      have htp : 0.5 ≤ (if 0 < |ca.y_position - (image_height : ℚ) * 0.5| / (image_height : ℚ)
            then min 3.0 (max 0.5 (|ca.y_position - (image_height : ℚ) * 0.5| /
              (image_height : ℚ) * 10)) else 1.5) ∧
          (if 0 < |ca.y_position - (image_height : ℚ) * 0.5| / (image_height : ℚ)
            then min 3.0 (max 0.5 (|ca.y_position - (image_height : ℚ) * 0.5| /
              (image_height : ℚ) * 10)) else 1.5) ≤ 3.0 := by
        split_ifs
        · exact ⟨le_min (by norm_num) (le_max_left _ _), min_le_left _ _⟩
        · norm_num
      obtain ⟨hsl1, hsl2⟩ := round1_mem_03_2 _ hsl.1 hsl.2
      obtain ⟨htp1, htp2⟩ := round1_mem_05_3 _ htp.1 htp.2
      exact ⟨hsl1, hsl2, htp1, htp2⟩

/-- C4 amended witness: the counterexample levels instantiate the rounded
formulas, the defaults and the clamp bounds. -/
theorem C4_trade_params_rounded_witness :
    (extractTradeParameters cexLevels 1000).take_profit_percent =
      round1 (min 3.0 (max 0.5 ((57 : ℚ) / ((1000 : ℕ) : ℚ) * 10))) ∧
    (extractTradeParameters [] 1000).stop_loss_percent = 0.5 ∧
    0.3 ≤ (extractTradeParameters cexLevels 1000).stop_loss_percent := by
  refine ⟨?_, ?_, ?_⟩
  · have h := (C4_trade_params_rounded cexLevels 1000).1 57 100 ?_ ?_ ?_ ?_ (by norm_num)
    · exact h.1
    · have habove : levelsAbove cexLevels 1000 = [cexLevelAbove] := by
        unfold levelsAbove cexLevels
        rw [List.filter_cons, List.filter_cons]
        norm_num [cexLevelAbove, cexLevelBelow]
      rw [habove]
      simp [cexLevelAbove]
      norm_num
    · intro l hl
      have habove : levelsAbove cexLevels 1000 = [cexLevelAbove] := by
        unfold levelsAbove cexLevels
        rw [List.filter_cons, List.filter_cons]
        norm_num [cexLevelAbove, cexLevelBelow]
      rw [habove] at hl
      simp only [List.mem_singleton] at hl
      subst hl
      norm_num [cexLevelAbove]
    · have hbelow : levelsBelow cexLevels 1000 = [cexLevelBelow] := by
        unfold levelsBelow cexLevels
        rw [List.filter_cons, List.filter_cons]
        norm_num [cexLevelAbove, cexLevelBelow]
      rw [hbelow]
      simp [cexLevelBelow]
      norm_num
    · intro l hl
      have hbelow : levelsBelow cexLevels 1000 = [cexLevelBelow] := by
        unfold levelsBelow cexLevels
        rw [List.filter_cons, List.filter_cons]
        norm_num [cexLevelAbove, cexLevelBelow]
      rw [hbelow] at hl
      simp only [List.mem_singleton] at hl
      subst hl
      norm_num [cexLevelBelow]
  · exact ((C4_trade_params_rounded [] 1000).2.1 (Or.inl rfl)).1
  · exact (C4_trade_params_rounded cexLevels 1000).2.2.1

/-- C8: on a fully black raster — given that the opaque edge/line/contour/
morphology operators return empty or zero results on an all-zero image, as
OpenCV's do — the trend is neutral, no candlestick pattern and no volume are
detected, and the fused signal is a sell with confidence exactly 0.75. -/
theorem C8_black_image (o : CVOracle) (h w : ℕ)
    (htl : o.tradeLines (blackImage h w) = [])
    (hsl : o.srLines (blackImage h w) = [])
    (hev : o.edgeVerticalCount (blackImage h w) = 0)
    (heh : o.edgeHorizontalCount (blackImage h w) = 0)
    (hco : o.contours (blackImage h w) = [])
    (hvc : o.volumeCount (blackImage h w) = 0) :
    (runAnalyzers o (blackImage h w)).trend_analysis.trend = "neutral" ∧
    (runAnalyzers o (blackImage h w)).candlestick_patterns.pattern_detected = false ∧
    (runAnalyzers o (blackImage h w)).volume_analysis.volume_present = false ∧
    (generateTradingSignal (runAnalyzers o (blackImage h w))).side = "sell" ∧
    (generateTradingSignal (runAnalyzers o (blackImage h w))).confidence = 0.75 := by
  have hgf : greenFrac (blackImage h w) = 0 := by
    unfold greenFrac
    rw [countInRange_black h w greenLower greenUpper (by decide)]
    simp
  have hrf : redFrac (blackImage h w) = 0 := by
    unfold redFrac
    rw [countInRange2_black h w redLower1 redUpper1 redLower2 redUpper2 (by decide) (by decide)]
    simp
  have htr := trend_neutral_case (blackImage h w)
    (by rw [hgf, hrf]; norm_num) (by rw [hgf, hrf]; norm_num)
  have hbd : blueDensity (blackImage h w) = 0 := by
    unfold blueDensity
    rw [countInRange_black h w blueLower blueUpper (by decide)]
    simp
  have hpd : purpleDensity (blackImage h w) = 0 := by
    unfold purpleDensity
    rw [countInRange_black h w purpleLower purpleUpper (by decide)]
    simp
  have hlev : (detectHorizontalLevels (blackImage h w).height (blackImage h w).width
      (o.tradeLines (blackImage h w))).length = 0 := by
    rw [htl, detectHorizontalLevels_length]
    rfl
  have hdet : (detectExistingTrade (blackImage h w)
      (o.tradeLines (blackImage h w))).has_existing_trade = false := by
    simp only [detectExistingTrade]
    split_ifs with hcond
    · exfalso
      rw [Bool.or_eq_true, Bool.or_eq_true, decide_eq_true_eq, decide_eq_true_eq,
        decide_eq_true_eq] at hcond
      rcases hcond with (hc | hc) | hc
      · rw [hbd] at hc
        norm_num at hc
      · rw [hpd] at hc
        norm_num at hc
      · rw [hlev] at hc
        omega
    · rfl
  have hpat : (detectCandlestickPatterns (o.edgeVerticalCount (blackImage h w))
      (o.edgeHorizontalCount (blackImage h w)) (blackImage h w)).pattern_detected = false := by
    rw [hev, heh]
    simp only [detectCandlestickPatterns]
    split_ifs with hcond
    · exfalso
      norm_num at hcond
    · rfl
  have hvol : (analyzeVolumePatterns (o.volumeCount (blackImage h w))
      (blackImage h w)).volume_present = false := by
    rw [hvc]
    simp only [analyzeVolumePatterns]
    split_ifs with hcond
    · exfalso
      norm_num at hcond
    · rfl
  have hpa : analyzePriceAction (o.contours (blackImage h w)) = ⟨"unclear", 0.3, 0, 0⟩ := by
    rw [hco]
    rfl
  have hsr : (findSupportResistanceLevels
      (o.srLines (blackImage h w))).has_support_resistance = false := by
    rw [hsl]
    rfl
  have hT : (runAnalyzers o (blackImage h w)).trend_analysis.trend = "neutral" := htr.1
  have hP : (runAnalyzers o (blackImage h w)).candlestick_patterns.pattern_detected
      = false := hpat
  have hPA : (runAnalyzers o (blackImage h w)).price_action.trend_direction = "unclear" := by
    show (analyzePriceAction (o.contours (blackImage h w))).trend_direction = "unclear"
    rw [hpa]
  have hSR : (runAnalyzers o (blackImage h w)).support_resistance.has_support_resistance
      = false := hsr
  have hr : (runAnalyzers o (blackImage h w)).existing_trade.has_existing_trade
      = false := hdet
  have hgen := generate_eq_weighted (runAnalyzers o (blackImage h w)) hr
  have hdir : claimDirection (runAnalyzers o (blackImage h w)) = none := by
    unfold claimDirection
    rw [hT, hPA]
    simp
  have hraw : claimRawScore (runAnalyzers o (blackImage h w)) = 0 := by
    unfold claimRawScore
    rw [hT, hP, hPA, hSR]
    simp
  have hscore : claimScore (runAnalyzers o (blackImage h w)) = 0.7 := by
    simp only [claimScore, hdir, hraw]
    norm_num
  refine ⟨htr.1, hpat, hvol, ?_, ?_⟩
  · rw [hgen, weightedSignalOf_eq]
    show (claimDirection (runAnalyzers o (blackImage h w))).getD sideSell = "sell"
    rw [hdir]
    rfl
  · rw [hgen, weightedSignalOf_eq]
    show max 0.75 (claimScore (runAnalyzers o (blackImage h w))) = 0.75
    rw [hscore]
    norm_num

/-- C8 witness: the 2×2 black raster with the empty oracle. -/
theorem C8_black_image_witness :
    (runAnalyzers emptyOracle (blackImage 2 2)).trend_analysis.trend = "neutral" ∧
    (runAnalyzers emptyOracle (blackImage 2 2)).candlestick_patterns.pattern_detected = false ∧
    (runAnalyzers emptyOracle (blackImage 2 2)).volume_analysis.volume_present = false ∧
    (generateTradingSignal (runAnalyzers emptyOracle (blackImage 2 2))).side = "sell" ∧
    (generateTradingSignal (runAnalyzers emptyOracle (blackImage 2 2))).confidence = 0.75 :=
  C8_black_image emptyOracle 2 2 rfl rfl rfl rfl rfl rfl

/-- C9: the decoder strips a data-URI prefix (requiring a comma and taking
the text after the first comma), base64-decodes, rejects decoded payloads
under 100 bytes, tries the raw OpenCV decode only after the primary PIL
decode fails, and fails only when both fail; a decode failure makes the
pipeline return the standardized error response whose safe-default signal is
a sell at confidence 0.75 with 0.5% stop and 2.0% target. -/
theorem C9_decode_contract :
    (∀ (o : DecodeOracle) (s : String), s.startsWith dataMarker = true →
        s.contains ',' = true →
        decodeImage o s = decodePayload o ((s.splitOn commaSep).getD 1 emptyString)) ∧
    (∀ (o : DecodeOracle) (s : String), s.startsWith dataMarker = false →
        decodeImage o s = decodePayload o s) ∧
    (∀ (o : DecodeOracle) (p : String) (bytes : List ℕ), o.b64 p.trim = some bytes →
        bytes.length < 100 → decodePayload o p = none) ∧
    (∀ (o : DecodeOracle) (p : String) (bytes : List ℕ) (img : Image),
        o.b64 p.trim = some bytes → 100 ≤ bytes.length →
        o.pil bytes = some img → decodePayload o p = some img) ∧
    (∀ (o : DecodeOracle) (p : String) (bytes : List ℕ),
        o.b64 p.trim = some bytes → 100 ≤ bytes.length → o.pil bytes = none →
        decodePayload o p = o.cvFallback bytes) ∧
    (∀ (o : DecodeOracle) (p : String), o.b64 p.trim = none → decodePayload o p = none) ∧
    (∀ (dec : DecodeOracle) (cv : CVOracle) (s : String),
        decodeImage dec s = none →
        analyzeChartImage dec cv s = createErrorResponse failedDecodeMsg) ∧
    (safeDefaultSignal.side = "sell" ∧ safeDefaultSignal.confidence = 0.75 ∧
      safeDefaultSignal.stopLossPercent = 0.5 ∧ safeDefaultSignal.takeProfitPercent = 2.0) := by
  refine ⟨?_, ?_, ?_, ?_, ?_, ?_, ?_, rfl, rfl, rfl, rfl⟩
  · intro o s hpre hcomma
    unfold decodeImage
    rw [hpre, hcomma]
    simp
  · intro o s hpre
    unfold decodeImage
    rw [hpre]
    simp
  · intro o p bytes hb64 hlen
    unfold decodePayload
    rw [hb64]
    simp only
    rw [if_pos hlen]
  · intro o p bytes img hb64 hlen hpil
    unfold decodePayload
    rw [hb64]
    simp only
    rw [if_neg (by omega), hpil]
  · intro o p bytes hb64 hlen hpil
    unfold decodePayload
    rw [hb64]
    simp only
    rw [if_neg (by omega), hpil]
  · intro o p hb64
    unfold decodePayload
    rw [hb64]
  · intro dec cv s hnone
    unfold analyzeChartImage
    rw [hnone]

/-- C9 witness: a 10-byte decoded payload is rejected as malformed, and the
resulting pipeline response is the standardized safe default. -/
theorem C9_decode_contract_witness :
    decodePayload smallPayloadOracle miniPayload = none ∧
    analyzeChartImage smallPayloadOracle emptyOracle miniPayload =
      createErrorResponse failedDecodeMsg := by
  have h1 := C9_decode_contract.2.2.1 smallPayloadOracle miniPayload
    (List.replicate 10 0) rfl (by norm_num)
  refine ⟨h1, ?_⟩
  have hnone : decodeImage smallPayloadOracle miniPayload = none := by
    rw [C9_decode_contract.2.1 smallPayloadOracle miniPayload (by decide)]
    exact h1
  exact C9_decode_contract.2.2.2.2.2.2.1 smallPayloadOracle emptyOracle miniPayload hnone
